import Mathlib

/-!
Shallow embedding of `src/indra/battlefield.py` (quantum-hack-2025-madrid).

The program simulates a turn-based battle between two teams of soldiers on a
discrete grid.  Randomness is modelled by explicit parameters:
  * `draws i` is the pair of `random.randint(-1, 1)` offsets consumed by the
    soldier at index `i` in `move_soldiers` (only non-"Quantum" soldiers use it);
  * `rnd i j` is the pair of `random.random() * 10` rolls (rationals in
    `[0, 10)`) consumed by the combat between soldiers at indices `i < j`
    in `resolve_combat` (each unordered pair fights at most once per pass,
    so indexing the random stream by the pair is faithful);
  * `qmove` is the opaque external `qlib.quantum_best_move` function
    (not part of the repository), kept fully abstract.
-/

/-- The `Soldier` dataclass: position, strength, unit type, team and range. -/
structure Soldier where
  x : Int
  y : Int
  strength : Int
  unit_type : String
  team : String
  range_dist : Int
deriving DecidableEq, Repr

/-- `Soldier.distance_to`: Manhattan distance to another soldier. -/
def distance_to (s o : Soldier) : Int :=
  |s.x - o.x| + |s.y - o.y|

/-- `Soldier.can_fight`: opposing team and within the acting soldier's range. -/
def can_fight (s o : Soldier) : Bool :=
  s.team != o.team && decide (distance_to s o ≤ s.range_dist)

/-- One iteration of the loop body of `QuantumBattlefield.move_soldiers`:
compute `best_move` (external call for team "Quantum", the raw random offsets
otherwise), then clip each component to the grid and update the position.
Note the source clips `best_move` itself, never `position + best_move`. -/
def moveSoldier (width height : Int) (qmove : Int × Int → Int × Int)
    (draw : Int × Int) (s : Soldier) : Soldier :=
  let best_move := if s.team = "Quantum" then qmove (s.x, s.y) else draw
  { s with
    x := max 0 (min (width - 1) best_move.1),
    y := max 0 (min (height - 1) best_move.2) }

/-- `QuantumBattlefield.move_soldiers`, indexed so that the soldier at
position `i` of the list consumes `draws i`.  Call with index `0`. -/
def move_soldiers (width height : Int) (qmove : Int × Int → Int × Int)
    (draws : Nat → Int × Int) : Nat → List Soldier → List Soldier
  | _, [] => []
  | i, s :: rest =>
      moveSoldier width height qmove (draws i) s ::
        move_soldiers width height qmove draws (i + 1) rest

/-- The marking phase of `QuantumBattlefield.resolve_combat`: the double loop
over indices `i`, `j` that accumulates the set `dead_soldiers`.  A pair fights
iff `i < j`, neither index is already marked dead, and
`soldier1.can_fight(soldier2)` holds; the strictly higher roll wins and the
loser's index is marked dead. -/
def combatPass (rnd : Nat → Nat → ℚ × ℚ) (soldiers : List Soldier) : List Nat :=
  (List.range soldiers.length).foldl (fun dead i =>
    if i ∈ dead then dead else
      (List.range soldiers.length).foldl (fun dead2 j =>
        if i ≥ j ∨ j ∈ dead2 ∨ i ∈ dead2 then dead2 else
          match soldiers.get? i, soldiers.get? j with
          | some s1, some s2 =>
              if can_fight s1 s2 then
                if (s1.strength : ℚ) + (rnd i j).1 > (s2.strength : ℚ) + (rnd i j).2
                then j :: dead2
                else i :: dead2
              else dead2
          | _, _ => dead2) dead) []

/-- The removal phase of `resolve_combat`: keep exactly the soldiers whose
index is not in the dead set, preserving order
(`[s for i, s in enumerate(self.soldiers) if i not in dead_soldiers]`). -/
def removeDead (dead : List Nat) : Nat → List Soldier → List Soldier
  | _, [] => []
  | i, s :: rest =>
      if i ∈ dead then removeDead dead (i + 1) rest
      else s :: removeDead dead (i + 1) rest

/-- `QuantumBattlefield.resolve_combat`: mark dead soldiers, then remove them
in one pass. -/
def resolve_combat (rnd : Nat → Nat → ℚ × ℚ) (soldiers : List Soldier) :
    List Soldier :=
  removeDead (combatPass rnd soldiers) 0 soldiers

/-- The mutable state of `QuantumBattlefield`: grid dimensions, soldier list,
turn counter, and the three lists of the `history` dict. -/
structure Battlefield where
  width : Int
  height : Int
  soldiers : List Soldier
  turn : Nat
  team_a_count_hist : List Nat
  team_b_count_hist : List Nat
  turn_hist : List Nat
deriving DecidableEq, Repr

/-- `QuantumBattlefield.record_history`: appends the count of team "Quantum"
soldiers, the count of team "B" soldiers, and the current turn. -/
def record_history (bf : Battlefield) : Battlefield :=
  let count_a := bf.soldiers.countP (fun s => s.team == "Quantum")
  let count_b := bf.soldiers.countP (fun s => s.team == "B")
  { bf with
    team_a_count_hist := bf.team_a_count_hist ++ [count_a],
    team_b_count_hist := bf.team_b_count_hist ++ [count_b],
    turn_hist := bf.turn_hist ++ [bf.turn] }

/-- `QuantumBattlefield.step`: move soldiers, resolve combat, increment the
turn counter, record history. -/
def step (qmove : Int × Int → Int × Int) (draws : Nat → Int × Int)
    (rnd : Nat → Nat → ℚ × ℚ) (bf : Battlefield) : Battlefield :=
  let moved := move_soldiers bf.width bf.height qmove draws 0 bf.soldiers
  let fought := resolve_combat rnd moved
  record_history { bf with soldiers := fought, turn := bf.turn + 1 }

/-- `QuantumBattlefield.is_battle_over`: either team (counted with the labels
"Quantum" and "Classical") has no soldiers left. -/
def is_battle_over (bf : Battlefield) : Bool :=
  bf.soldiers.countP (fun s => s.team == "Quantum") == 0 ||
  bf.soldiers.countP (fun s => s.team == "Classical") == 0

/-- `QuantumBattlefield.get_winner`: `'Quantum'`, `'Classical'`, or `None`. -/
def get_winner (bf : Battlefield) : Option String :=
  let count_a := bf.soldiers.countP (fun s => s.team == "Quantum")
  let count_b := bf.soldiers.countP (fun s => s.team == "Classical")
  if count_a = 0 ∧ count_b = 0 then none
  else if count_a = 0 then some "Classical"
  else if count_b = 0 then some "Quantum"
  else none

/-- `QuantumBattlefield.get_survivor_count`: the pair of live counts, team
"Quantum" first, team "Classical" second. -/
def get_survivor_count (bf : Battlefield) : Nat × Nat :=
  (bf.soldiers.countP (fun s => s.team == "Quantum"),
   bf.soldiers.countP (fun s => s.team == "Classical"))

/-- Restatement of the spec sentence for `getWinner` (§4.4): the surviving
team's label when exactly one team's count is zero, the `None` sentinel when
both are zero or both are nonzero.  Written from the spec's words, to be
compared with `get_winner` (claim C5). -/
def get_winner_spec (bf : Battlefield) : Option String :=
  let c := get_survivor_count bf
  if c.1 = 0 ∧ c.2 ≠ 0 then some "Classical"
  else if c.2 = 0 ∧ c.1 ≠ 0 then some "Quantum"
  else none

/-- An identity stand-in for the opaque external movement function, used in
concrete evaluations. -/
def qmoveId : Int × Int → Int × Int := fun p => p

/-- Random offsets that are always `(0, 0)`. -/
def drawsZero : Nat → Int × Int := fun _ => (0, 0)

/-- Random offsets that are always `(1, 1)`. -/
def drawsOne : Nat → Int × Int := fun _ => (1, 1)

/-- Combat rolls that are always `(0, 0)`. -/
def rndZero : Nat → Nat → ℚ × ℚ := fun _ _ => (0, 0)

/-- Combat rolls that are always `(5, 5)`, interior to `[0, 10)`. -/
def rndFive : Nat → Nat → ℚ × ℚ := fun _ _ => (5, 5)

/-- A team-"B" soldier at `(3, 3)`. -/
def teamBSoldier : Soldier := ⟨3, 3, 10, "soldier", "B", 1⟩

/-- A 4×4 battlefield holding only `teamBSoldier`. -/
def bfB : Battlefield := ⟨4, 4, [teamBSoldier], 0, [], [], []⟩

/-- A team-"Classical" soldier at `(0, 0)`. -/
def classicalSoldier : Soldier := ⟨0, 0, 10, "soldier", "Classical", 1⟩

/-- A 4×4 battlefield holding only `classicalSoldier`. -/
def bfClassical : Battlefield := ⟨4, 4, [classicalSoldier], 0, [], [], []⟩

/-- Two soldiers of equal strength 5, on opposing teams, at distance 1. -/
def tieQuantum : Soldier := ⟨0, 0, 5, "soldier", "Quantum", 1⟩

/-- The second, "Classical", soldier of the equal-strength pair. -/
def tieClassical : Soldier := ⟨1, 0, 5, "soldier", "Classical", 1⟩

/-- The strength-100 team-A soldier of the spec's combat scenario (§8). -/
def strongQuantum : Soldier := ⟨0, 0, 100, "soldier", "Quantum", 5⟩

/-- The strength-1 team-B soldier of the spec's combat scenario (§8). -/
def weakClassical : Soldier := ⟨1, 0, 1, "soldier", "Classical", 5⟩

/-- The battlefield state after the combat resolution of the spec's combat
scenario (§8), parameterized by the combat rolls. -/
def bfAfterDuel (rnd : Nat → Nat → ℚ × ℚ) : Battlefield :=
  ⟨4, 4, resolve_combat rnd [strongQuantum, weakClassical], 1, [], [], []⟩

/-- The removal phase keeps a sublist of the soldiers, whatever the dead set. -/
theorem removeDead_sublist (dead : List Nat) :
    ∀ (i : Nat) (l : List Soldier), (removeDead dead i l).Sublist l := by
  intro i l
  induction l generalizing i with
  | nil => simp [removeDead]
  | cons s rest ih =>
      rw [removeDead]
      split
      · exact (ih (i + 1)).cons s
      · exact (ih (i + 1)).cons₂ s

/-- `resolve_combat` returns a sublist of its input. -/
theorem resolve_combat_sublist (rnd : Nat → Nat → ℚ × ℚ) (l : List Soldier) :
    (resolve_combat rnd l).Sublist l :=
  removeDead_sublist _ 0 l

/-- Moving soldiers never changes any team label, so per-team counts are
preserved by `move_soldiers`. -/
theorem move_soldiers_countP (w h : Int) (q : Int × Int → Int × Int)
    (dr : Nat → Int × Int) (t : String) :
    ∀ (i : Nat) (l : List Soldier),
      (move_soldiers w h q dr i l).countP (fun s => s.team == t) =
        l.countP (fun s => s.team == t) := by
  intro i l
  induction l generalizing i with
  | nil => rfl
  | cons s rest ih =>
      simp [move_soldiers, List.countP_cons, ih, moveSoldier]

/-- Every soldier produced by `move_soldiers` has clipped coordinates, for any
movement policy and any draws, provided the grid is nonempty. -/
theorem move_soldiers_bounds (w h : Int) (q : Int × Int → Int × Int)
    (dr : Nat → Int × Int) (hw : 0 < w) (hh : 0 < h) :
    ∀ (i : Nat) (l : List Soldier) (s : Soldier),
      s ∈ move_soldiers w h q dr i l →
      0 ≤ s.x ∧ s.x < w ∧ 0 ≤ s.y ∧ s.y < h := by
  intro i l
  induction l generalizing i with
  | nil => intro s hs; simp [move_soldiers] at hs
  | cons a rest ih =>
      intro s hs
      rw [move_soldiers] at hs
      rcases List.mem_cons.mp hs with rfl | hmem
      · simp only [moveSoldier]
        refine ⟨le_max_left _ _, ?_, le_max_left _ _, ?_⟩ <;> omega
      · exact ih (i + 1) s hmem

/-- On a two-soldier list where the first can fight the second and the first
roll is strictly higher, combat removes the second soldier. -/
theorem combatPass_pair_gt (rnd : Nat → Nat → ℚ × ℚ) (s1 s2 : Soldier)
    (hf : can_fight s1 s2 = true)
    (hr : (s1.strength : ℚ) + (rnd 0 1).1 > (s2.strength : ℚ) + (rnd 0 1).2) :
    resolve_combat rnd [s1, s2] = [s1] := by
  have h2 : List.range 2 = [0, 1] := rfl
  simp [resolve_combat, combatPass, removeDead, hf, hr, h2]

/-- On a two-soldier list where the first can fight the second and the first
roll is not strictly higher, combat removes the first soldier. -/
theorem combatPass_pair_le (rnd : Nat → Nat → ℚ × ℚ) (s1 s2 : Soldier)
    (hf : can_fight s1 s2 = true)
    (hr : ¬ ((s1.strength : ℚ) + (rnd 0 1).1 > (s2.strength : ℚ) + (rnd 0 1).2)) :
    resolve_combat rnd [s1, s2] = [s2] := by
  have h2 : List.range 2 = [0, 1] := rfl
  simp [resolve_combat, combatPass, removeDead, hf, hr, h2]

/-- A non-"Quantum" soldier produced by `move_soldiers` with offsets in
`{-1, 0, 1}` lands in `{0, 1} × {0, 1}` on a grid of width and height `≥ 2`,
because the raw offset itself is clipped as an absolute coordinate. -/
theorem move_soldiers_nonquantum (w h : Int) (q : Int × Int → Int × Int)
    (dr : Nat → Int × Int) (hw : 2 ≤ w) (hh : 2 ≤ h)
    (hdr : ∀ i, -1 ≤ (dr i).1 ∧ (dr i).1 ≤ 1 ∧ -1 ≤ (dr i).2 ∧ (dr i).2 ≤ 1) :
    ∀ (i : Nat) (l : List Soldier) (s : Soldier),
      s ∈ move_soldiers w h q dr i l → s.team ≠ "Quantum" →
      (s.x = 0 ∨ s.x = 1) ∧ (s.y = 0 ∨ s.y = 1) := by
  intro i l
  induction l generalizing i with
  | nil => intro s hs; simp [move_soldiers] at hs
  | cons a rest ih =>
      intro s hs hteam
      rw [move_soldiers] at hs
      rcases List.mem_cons.mp hs with rfl | hmem
      · have hat : a.team ≠ "Quantum" := hteam
        have hb := hdr i
        simp only [moveSoldier, hat, if_false, if_neg hat]
        constructor <;> omega
      · exact ih (i + 1) s hmem hteam

/-- C1: the claim says a team-"B" soldier at `(x, y)` with offsets `(dx, dy)`
moves to `(clamp (x+dx), clamp (y+dy))`.  The code instead clips the raw
offset pair itself as an absolute target: `teamBSoldier` at `(3, 3)` with
offsets `(1, 1)` on a 4×4 grid ends at `(1, 1)`, while the claim predicts
`x`-coordinate `max 0 (min 3 (3+1)) = 3`. -/
theorem randomWalkClampsRawOffset :
    move_soldiers 4 4 qmoveId drawsOne 0 [teamBSoldier] =
      [⟨1, 1, 10, "soldier", "B", 1⟩] ∧
    (1 : Int) ≠ max 0 (min (4 - 1) (teamBSoldier.x + (drawsOne 0).1)) :=
  ⟨rfl, by decide⟩

/-- C2: after `step()` the turn counter increases by 1 and exactly one entry
is appended to each history list, but the appended pair counts the second
team with the label "B" while `get_survivor_count` counts the label
"Classical": on a battlefield holding one "Classical" soldier the appended
counts are `(0, 0)` while `get_survivor_count` returns `(0, 1)`. -/
theorem historyCountsWrongLabel :
    (step qmoveId drawsZero rndZero bfClassical).turn = bfClassical.turn + 1 ∧
    (step qmoveId drawsZero rndZero bfClassical).team_a_count_hist = [0] ∧
    (step qmoveId drawsZero rndZero bfClassical).team_b_count_hist = [0] ∧
    get_survivor_count (step qmoveId drawsZero rndZero bfClassical) = (0, 1) ∧
    (0 : Nat) ≠ 1 :=
  ⟨rfl, rfl, rfl, rfl, by decide⟩

/-- C3 counterexample: with equal strengths 5 and equal rolls `(0, 0)` the two
rolls tie, and combat removes the FIRST-indexed soldier (`tieQuantum`), not
the second one as the claim states: the survivor list is `[tieClassical]`. -/
theorem tieKillsFirstIndexed :
    ((5 : ℚ) + (rndZero 0 1).1 = (5 : ℚ) + (rndZero 0 1).2) ∧
    can_fight tieQuantum tieClassical = true ∧
    resolve_combat rndZero [tieQuantum, tieClassical] = [tieClassical] ∧
    tieQuantum ∉ resolve_combat rndZero [tieQuantum, tieClassical] := by
  have hres : resolve_combat rndZero [tieQuantum, tieClassical] = [tieClassical] :=
    combatPass_pair_le rndZero tieQuantum tieClassical (by decide)
      (by show ¬((5 : ℚ) + (rndZero 0 1).1 > (5 : ℚ) + (rndZero 0 1).2)
          norm_num [rndZero])
  refine ⟨rfl, by decide, hres, ?_⟩
  rw [hres]
  decide

/-- C3 (amended): when the two rolls are exactly equal, the `else` branch of
`resolve_combat` marks the first-indexed soldier dead, so the second-indexed
soldier wins the tie and survives. -/
theorem tieSecondIndexedWins (rnd : Nat → Nat → ℚ × ℚ) (s1 s2 : Soldier)
    (hf : can_fight s1 s2 = true)
    (heq : (s1.strength : ℚ) + (rnd 0 1).1 = (s2.strength : ℚ) + (rnd 0 1).2) :
    resolve_combat rnd [s1, s2] = [s2] :=
  combatPass_pair_le rnd s1 s2 hf (by rw [heq]; exact lt_irrefl _)

/-- C3 witness: the amended tie rule evaluated on the concrete equal-strength
pair with zero rolls. -/
theorem tieSecondIndexedWins_witness :
    can_fight tieQuantum tieClassical = true ∧
    resolve_combat rndZero [tieQuantum, tieClassical] = [tieClassical] :=
  ⟨by decide, tieSecondIndexedWins rndZero tieQuantum tieClassical (by decide) rfl⟩

/-- C4: on a grid with positive width and height, every soldier alive after
`step()` has `0 ≤ x < width` and `0 ≤ y < height`, for every movement policy,
every random offsets and every combat rolls. -/
theorem stepSoldiersInBounds (qmove : Int × Int → Int × Int)
    (draws : Nat → Int × Int) (rnd : Nat → Nat → ℚ × ℚ) (bf : Battlefield)
    (hw : 0 < bf.width) (hh : 0 < bf.height) :
    ∀ s ∈ (step qmove draws rnd bf).soldiers,
      0 ≤ s.x ∧ s.x < bf.width ∧ 0 ≤ s.y ∧ s.y < bf.height := by
  intro s hs
  have hmem : s ∈ move_soldiers bf.width bf.height qmove draws 0 bf.soldiers :=
    (resolve_combat_sublist rnd
      (move_soldiers bf.width bf.height qmove draws 0 bf.soldiers)).mem hs
  exact move_soldiers_bounds bf.width bf.height qmove draws hw hh 0 bf.soldiers s hmem

/-- C4 witness: the clipping invariant evaluated after one step on the
concrete 4×4 battlefield `bfB`. -/
theorem stepSoldiersInBounds_witness :
    (0 : Int) < bfB.width ∧
    ∀ s ∈ (step qmoveId drawsOne rndZero bfB).soldiers,
      0 ≤ s.x ∧ s.x < bfB.width ∧ 0 ≤ s.y ∧ s.y < bfB.height :=
  ⟨by decide, stepSoldiersInBounds qmoveId drawsOne rndZero bfB (by decide) (by decide)⟩

/-- C5: `get_winner` agrees with the spec's description: the surviving team's
label when exactly one team's survivor count is zero, the `None` sentinel when
both counts are zero or both are nonzero. -/
theorem getWinnerMatchesSpec (bf : Battlefield) :
    get_winner bf = get_winner_spec bf := by
  unfold get_winner get_winner_spec get_survivor_count
  by_cases ha : bf.soldiers.countP (fun s => s.team == "Quantum") = 0 <;>
    by_cases hb : bf.soldiers.countP (fun s => s.team == "Classical") = 0 <;>
      simp [ha, hb]

/-- C6: `is_battle_over` is true iff `get_survivor_count` has a zero
component. -/
theorem battleOverIffZeroComponent (bf : Battlefield) :
    is_battle_over bf = true ↔
      (get_survivor_count bf).1 = 0 ∨ (get_survivor_count bf).2 = 0 := by
  simp [is_battle_over, get_survivor_count]

/-- C7: both survivor counts are nonnegative, and one `step()` never increases
either component (movement preserves teams, combat only removes soldiers). -/
theorem survivorCountsMonotone (qmove : Int × Int → Int × Int)
    (draws : Nat → Int × Int) (rnd : Nat → Nat → ℚ × ℚ) (bf : Battlefield) :
    0 ≤ (get_survivor_count bf).1 ∧ 0 ≤ (get_survivor_count bf).2 ∧
    (get_survivor_count (step qmove draws rnd bf)).1 ≤ (get_survivor_count bf).1 ∧
    (get_survivor_count (step qmove draws rnd bf)).2 ≤ (get_survivor_count bf).2 := by
  have key : ∀ t : String,
      (step qmove draws rnd bf).soldiers.countP (fun s => s.team == t) ≤
        bf.soldiers.countP (fun s => s.team == t) := by
    intro t
    have hs := (resolve_combat_sublist rnd
      (move_soldiers bf.width bf.height qmove draws 0 bf.soldiers)).countP_le
        (fun s => s.team == t)
    have hm := move_soldiers_countP bf.width bf.height qmove draws t 0 bf.soldiers
    exact le_of_le_of_eq hs hm
  exact ⟨Nat.zero_le _, Nat.zero_le _, key "Quantum", key "Classical"⟩

/-- C8: in the spec's combat scenario (strength 100 vs strength 1, distance 1,
range 5), for every pair of rolls in `[0, 10)` the strong "Quantum" soldier
always wins: the weak soldier is removed, `get_survivor_count` returns
`(1, 0)` and `get_winner` returns `some "Quantum"`. -/
theorem strongBeatsWeakAlways (rnd : Nat → Nat → ℚ × ℚ)
    (h10 : 0 ≤ (rnd 0 1).1) (h11 : (rnd 0 1).1 < 10)
    (h20 : 0 ≤ (rnd 0 1).2) (h21 : (rnd 0 1).2 < 10) :
    resolve_combat rnd [strongQuantum, weakClassical] = [strongQuantum] ∧
    get_survivor_count (bfAfterDuel rnd) = (1, 0) ∧
    get_winner (bfAfterDuel rnd) = some "Quantum" := by
  have hr : (strongQuantum.strength : ℚ) + (rnd 0 1).1 >
      (weakClassical.strength : ℚ) + (rnd 0 1).2 := by
    show (100 : ℚ) + (rnd 0 1).1 > (1 : ℚ) + (rnd 0 1).2
    linarith
  have hres := combatPass_pair_gt rnd strongQuantum weakClassical (by decide) hr
  have hbf : bfAfterDuel rnd = ⟨4, 4, [strongQuantum], 1, [], [], []⟩ := by
    unfold bfAfterDuel
    rw [hres]
  refine ⟨hres, ?_, ?_⟩ <;> rw [hbf] <;> decide

/-- C8 witness: the combat scenario evaluated at the concrete rolls `(5, 5)`. -/
theorem strongBeatsWeakAlways_witness :
    (0 ≤ (rndFive 0 1).1 ∧ (rndFive 0 1).1 < 10 ∧
     0 ≤ (rndFive 0 1).2 ∧ (rndFive 0 1).2 < 10) ∧
    resolve_combat rndFive [strongQuantum, weakClassical] = [strongQuantum] ∧
    get_survivor_count (bfAfterDuel rndFive) = (1, 0) ∧
    get_winner (bfAfterDuel rndFive) = some "Quantum" := by
  have h := strongBeatsWeakAlways rndFive (by norm_num [rndFive]) (by norm_num [rndFive])
    (by norm_num [rndFive]) (by norm_num [rndFive])
  exact ⟨⟨by norm_num [rndFive], by norm_num [rndFive], by norm_num [rndFive],
    by norm_num [rndFive]⟩, h⟩

/-- C9: `resolve_combat` only removes soldiers: its result is a sublist of its
input, so every survivor is the identical record (same position, strength,
category, team and range) and survivors keep their relative order. -/
theorem resolveCombatOnlyRemoves (rnd : Nat → Nat → ℚ × ℚ) (l : List Soldier) :
    (resolve_combat rnd l).Sublist l :=
  resolve_combat_sublist rnd l

/-- C10: with offsets drawn from `{-1, 0, 1}` and a grid of width and height
`≥ 2`, every non-"Quantum" soldier lands in `{0, 1} × {0, 1}` after
`move_soldiers`, and hence also after `step()`, whatever its prior position. -/
theorem nonQuantumCollapseToCorner (qmove : Int × Int → Int × Int)
    (draws : Nat → Int × Int) (rnd : Nat → Nat → ℚ × ℚ) (bf : Battlefield)
    (hw : 2 ≤ bf.width) (hh : 2 ≤ bf.height)
    (hdr : ∀ i, -1 ≤ (draws i).1 ∧ (draws i).1 ≤ 1 ∧
      -1 ≤ (draws i).2 ∧ (draws i).2 ≤ 1) :
    (∀ s ∈ move_soldiers bf.width bf.height qmove draws 0 bf.soldiers,
       s.team ≠ "Quantum" → (s.x = 0 ∨ s.x = 1) ∧ (s.y = 0 ∨ s.y = 1)) ∧
    (∀ s ∈ (step qmove draws rnd bf).soldiers,
       s.team ≠ "Quantum" → (s.x = 0 ∨ s.x = 1) ∧ (s.y = 0 ∨ s.y = 1)) := by
  constructor
  · intro s hs
    exact move_soldiers_nonquantum bf.width bf.height qmove draws hw hh hdr 0
      bf.soldiers s hs
  · intro s hs
    have hmem : s ∈ move_soldiers bf.width bf.height qmove draws 0 bf.soldiers :=
      (resolve_combat_sublist rnd
        (move_soldiers bf.width bf.height qmove draws 0 bf.soldiers)).mem hs
    exact move_soldiers_nonquantum bf.width bf.height qmove draws hw hh hdr 0
      bf.soldiers s hmem

/-- C10 witness: the collapse property evaluated on the concrete battlefield
`bfB` with offsets `(1, 1)`. -/
theorem nonQuantumCollapseToCorner_witness :
    ((2 : Int) ≤ bfB.width ∧ (2 : Int) ≤ bfB.height) ∧
    (∀ s ∈ move_soldiers bfB.width bfB.height qmoveId drawsOne 0 bfB.soldiers,
       s.team ≠ "Quantum" → (s.x = 0 ∨ s.x = 1) ∧ (s.y = 0 ∨ s.y = 1)) ∧
    (∀ s ∈ (step qmoveId drawsOne rndZero bfB).soldiers,
       s.team ≠ "Quantum" → (s.x = 0 ∨ s.x = 1) ∧ (s.y = 0 ∨ s.y = 1)) :=
  ⟨⟨by decide, by decide⟩,
    nonQuantumCollapseToCorner qmoveId drawsOne rndZero bfB (by decide) (by decide)
      (fun i => by norm_num [drawsOne])⟩
